import Mathlib

/-!
Verification of the access-control / collaboration core of the
Real-Time-Workspace backend (`src/Backend/app`), shallowly embedded in Lean.

Conventions of the embedding:
* UUIDs are modelled as `Nat`; emails as `String`; timestamps as `Nat`
  (an abstract monotone clock — every service call that reads
  `datetime.now()` takes the current time `now` as an explicit argument).
* SQLAlchemy rows become structures, tables become lists; `scalar_one_or_none`
  on a query becomes `List.find?` of the query's predicate (under the unique
  constraints declared in `models.py` at most one row matches).
* Mutating the ORM object returned by a query and committing becomes
  `touchFirst p f`, which rewrites exactly the first row matched by the
  query predicate `p`.
* A `db.commit()` that would violate a declared unique constraint raises and
  rolls the whole transaction back; such operations return `Except` and
  leave the state unchanged on error.
-/

namespace RTWS

/-- `models.DocumentRole`: RBAC roles for document permissions. -/
inductive DocumentRole
  | OWNER
  | EDITOR
  | VIEWER
deriving DecidableEq, Repr

/-- `models.InvitationStatus`: status tracking for document invitations. -/
inductive InvitationStatus
  | PENDING
  | ACCEPTED
  | DECLINED
  | EXPIRED
deriving DecidableEq, Repr

/-- `models.User` (the fields the verified services read). -/
structure User where
  id : Nat
  email : String
deriving DecidableEq, Repr

/-- `models.Document` (the fields the verified services read or write). -/
structure Document where
  id : Nat
  owner_id : Nat
  crdt_state : Option (List Nat)
  crdt_version : Nat
  is_archived : Bool
  is_public : Bool
  last_edited_at : Option Nat
deriving DecidableEq, Repr

/-- `models.DocumentPermission`: a (document, user) pair mapped to a role.
`models.py` declares `UniqueConstraint("document_id", "user_id")`
(`uq_document_user_permission`). -/
structure DocumentPermission where
  document_id : Nat
  user_id : Nat
  role : DocumentRole
  granted_by_id : Option Nat
  granted_at : Nat
deriving DecidableEq, Repr

/-- `models.Invitation` (the fields the verified services read or write). -/
structure Invitation where
  id : Nat
  document_id : Nat
  invited_by_id : Nat
  invitee_email : String
  invitee_id : Option Nat
  role : DocumentRole
  status : InvitationStatus
  message : Option String
  expires_at : Nat
  responded_at : Option Nat
deriving DecidableEq, Repr

/-- The relational state the document / invitation services operate on. -/
structure DB where
  users : List User
  documents : List Document
  permissions : List DocumentPermission
  invitations : List Invitation
deriving DecidableEq, Repr

/-- Rewrite the first element satisfying `p` by `f`, leaving the rest alone:
the effect of mutating the single ORM object returned by a query and
committing. -/
def touchFirst {α : Type} (p : α → Bool) (f : α → α) : List α → List α
  | [] => []
  | a :: l => if p a then f a :: l else a :: touchFirst p f l

theorem touchFirst_nil {α : Type} (p : α → Bool) (f : α → α) :
    touchFirst p f [] = [] := rfl

theorem touchFirst_cons {α : Type} (p : α → Bool) (f : α → α) (a : α) (l : List α) :
    touchFirst p f (a :: l) = if p a then f a :: l else a :: touchFirst p f l := rfl

/-- If the first match of `p` is `a` and `f a` still matches `p`, then after
touching, the first match is `f a`. -/
theorem find?_touchFirst {α : Type} {p : α → Bool} {f : α → α} {l : List α} {a : α}
    (hfind : l.find? p = some a) (hfa : p (f a) = true) :
    (touchFirst p f l).find? p = some (f a) := by
  induction l with
  | nil => simp at hfind
  | cons b l ih =>
    by_cases hb : p b
    · rw [List.find?_cons_of_pos _ hb] at hfind
      cases hfind
      simp [touchFirst, hb, List.find?_cons_of_pos _ hfa]
    · rw [List.find?_cons_of_neg _ hb] at hfind
      simp [touchFirst, hb, List.find?_cons_of_neg _ hb, ih hfind]

/-- Touching a list in which nothing satisfies `p` is the identity. -/
theorem touchFirst_of_forall_neg {α : Type} {p : α → Bool} {f : α → α} {l : List α}
    (h : ∀ a ∈ l, p a = false) : touchFirst p f l = l := by
  induction l with
  | nil => rfl
  | cons b l ih =>
    have hb := h b (List.mem_cons_self b l)
    simp [touchFirst, hb, ih fun a ha => h a (List.mem_cons_of_mem b ha)]

/-- `touchFirst` distributes over an append whose left part has no match. -/
theorem touchFirst_append_of_forall_neg {α : Type} {p : α → Bool} {f : α → α}
    {l₁ l₂ : List α} (h : ∀ a ∈ l₁, p a = false) :
    touchFirst p f (l₁ ++ l₂) = l₁ ++ touchFirst p f l₂ := by
  induction l₁ with
  | nil => rfl
  | cons b l ih =>
    have hb := h b (List.mem_cons_self b l)
    simp [touchFirst, hb, ih fun a ha => h a (List.mem_cons_of_mem b ha)]

/-- `find?` skips an all-negative prefix. -/
theorem find?_append_of_forall_neg {α : Type} {p : α → Bool} {l₁ l₂ : List α}
    (h : ∀ a ∈ l₁, p a = false) : (l₁ ++ l₂).find? p = l₂.find? p := by
  induction l₁ with
  | nil => rfl
  | cons b l ih =>
    have hb : ¬ p b = true := by simp [h b (List.mem_cons_self b l)]
    rw [List.cons_append, List.find?_cons_of_neg _ hb,
      ih fun a ha => h a (List.mem_cons_of_mem b ha)]

/-- Every element of `touchFirst p f l` is an element of `l` or the image
under `f` of an element of `l`. -/
theorem mem_touchFirst {α : Type} {p : α → Bool} {f : α → α} {l : List α} {b : α}
    (hb : b ∈ touchFirst p f l) : b ∈ l ∨ ∃ a ∈ l, b = f a := by
  induction l with
  | nil => simp [touchFirst] at hb
  | cons c l ih =>
    by_cases hc : p c
    · simp only [touchFirst, if_pos hc, List.mem_cons] at hb
      rcases hb with h | h
      · exact Or.inr ⟨c, List.mem_cons_self c l, h⟩
      · exact Or.inl (List.mem_cons_of_mem c h)
    · simp only [touchFirst, if_neg hc, List.mem_cons] at hb
      rcases hb with h | h
      · exact Or.inl (h ▸ List.mem_cons_self c l)
      · rcases ih h with h' | ⟨a, ha, hba⟩
        · exact Or.inl (List.mem_cons_of_mem c h')
        · exact Or.inr ⟨a, List.mem_cons_of_mem c ha, hba⟩

/-- `countP` is unchanged by `touchFirst` when `f` preserves the counted
predicate `q` in both directions. -/
theorem countP_touchFirst {α : Type} {p q : α → Bool} {f : α → α} {l : List α}
    (hq : ∀ a, q (f a) = q a) :
    (touchFirst p f l).countP q = l.countP q := by
  induction l with
  | nil => rfl
  | cons b l ih =>
    by_cases hb : p b
    · simp [touchFirst, hb, List.countP_cons, hq]
    · simp [touchFirst, hb, List.countP_cons, ih]

/-- `countP` does not increase under `touchFirst` when `f` never creates a
new match of `q`. -/
theorem countP_touchFirst_le {α : Type} {p q : α → Bool} {f : α → α} {l : List α}
    (hq : ∀ a, q (f a) = true → q a = true) :
    (touchFirst p f l).countP q ≤ l.countP q := by
  induction l with
  | nil => exact Nat.le_refl _
  | cons b l ih =>
    by_cases hb : p b
    · simp only [touchFirst, if_pos hb, List.countP_cons]
      by_cases hfb : q (f b)
      · rw [if_pos hfb, if_pos (hq b hfb)]
      · rw [if_neg hfb, Nat.add_zero]
        exact Nat.le_add_right _ _
    · simp only [touchFirst, if_neg hb, List.countP_cons]
      exact Nat.add_le_add_right ih _

/-- `countP` does not increase under a `map` whose function never creates a
new match of `q`. -/
theorem countP_map_le {α : Type} {q : α → Bool} {f : α → α} {l : List α}
    (hq : ∀ a ∈ l, q (f a) = true → q a = true) :
    (l.map f).countP q ≤ l.countP q := by
  induction l with
  | nil => exact Nat.le_refl _
  | cons b l ih =>
    simp only [List.map_cons, List.countP_cons]
    have hb := hq b (List.mem_cons_self b l)
    have ihl := ih fun a ha => hq a (List.mem_cons_of_mem b ha)
    by_cases hfb : q (f b)
    · rw [if_pos hfb, if_pos (hb hfb)]
      exact Nat.add_le_add_right ihl 1
    · rw [if_neg hfb, Nat.add_zero]
      exact Nat.le_trans ihl (Nat.le_add_right _ _)

/-! ## Document service (`app/services/document.py`) -/

/-- `DocumentService.get_document_by_id`: lookup by id, excluding archived
documents unless `include_archived`. -/
def get_document_by_id (db : DB) (document_id : Nat)
    (include_archived : Bool) : Option Document :=
  db.documents.find? fun d =>
    d.id == document_id && (include_archived || !d.is_archived)

/-- `DocumentService.get_user_permission`: the unique permission row for a
(document, user) pair (unique by `uq_document_user_permission`). -/
def get_user_permission (db : DB) (document_id user_id : Nat) :
    Option DocumentPermission :=
  db.permissions.find? fun p =>
    p.document_id == document_id && p.user_id == user_id

/-- `DocumentService.get_user_role`. -/
def get_user_role (db : DB) (document_id user_id : Nat) : Option DocumentRole :=
  (get_user_permission db document_id user_id).map (·.role)

/-- The `role_hierarchy` dict inside `DocumentService.check_access`. -/
def roleHierarchy : DocumentRole → Nat
  | .VIEWER => 1
  | .EDITOR => 2
  | .OWNER => 3

/-- `DocumentService.check_access`: explicit role wins; otherwise a public
(non-archived, via `get_document_by_id`) document grants VIEWER. -/
def check_access (db : DB) (document_id user_id : Nat)
    (required_role : DocumentRole) : Bool :=
  match get_user_role db document_id user_id with
  | none =>
      match get_document_by_id db document_id false with
      | some doc => doc.is_public && required_role == DocumentRole.VIEWER
      | none => false
  | some role => Nat.ble (roleHierarchy required_role) (roleHierarchy role)

/-- `DocumentService.grant_permission`: upsert a (document, user) role row. -/
def grant_permission (db : DB) (document_id user_id : Nat)
    (role : DocumentRole) (granted_by_id : Nat) (now : Nat) :
    DB × DocumentPermission :=
  match get_user_permission db document_id user_id with
  | some existing =>
      let updated : DocumentPermission :=
        { existing with role := role, granted_by_id := some granted_by_id,
                        granted_at := now }
      ({ db with permissions :=
          (touchFirst (fun p => p.document_id == document_id && p.user_id == user_id)
            (fun p => { p with role := role, granted_by_id := some granted_by_id,
                               granted_at := now })
            db.permissions) },
       updated)
  | none =>
      let permission : DocumentPermission :=
        { document_id := document_id, user_id := user_id, role := role,
          granted_by_id := some granted_by_id, granted_at := now }
      ({ db with permissions := db.permissions ++ [permission] }, permission)

/-- The `POST /documents/{id}/permissions` route (`routers/documents.py`):
rejects `role == OWNER` before calling the service. -/
def grant_permission_route (db : DB) (document_id : Nat)
    (target_user_id : Nat) (role : DocumentRole) (current_user : User)
    (now : Nat) : DB × Except Unit DocumentPermission :=
  if role = DocumentRole.OWNER then (db, Except.error ())
  else
    let (db₂, permission) :=
      grant_permission db document_id target_user_id role current_user.id now
    (db₂, Except.ok permission)

/-- `DocumentService.revoke_permission`: deletes the row unless absent or
held at OWNER. -/
def revoke_permission (db : DB) (document_id user_id : Nat) : DB × Bool :=
  match get_user_permission db document_id user_id with
  | none => (db, false)
  | some permission =>
      if permission.role = DocumentRole.OWNER then (db, false)
      else
        ({ db with permissions :=
            db.permissions.eraseP fun p =>
              p.document_id == document_id && p.user_id == user_id },
         true)

/-- `DocumentService.update_crdt_state`: version-gated (CAS) write of the
opaque CRDT blob.  Returns the unchanged state and `none` on not-found or
version conflict. -/
def update_crdt_state (db : DB) (document_id : Nat) (crdt_state : List Nat)
    (expected_version : Option Nat) (now : Nat) : DB × Option Document :=
  match get_document_by_id db document_id false with
  | none => (db, none)
  | some document =>
      if expected_version.isSome && expected_version != some document.crdt_version then
        (db, none)
      else
        let updated : Document :=
          { document with crdt_state := some crdt_state,
                          crdt_version := document.crdt_version + 1,
                          last_edited_at := some now }
        ({ db with documents :=
            (touchFirst (fun d => d.id == document_id && (false || !d.is_archived))
              (fun d => { d with crdt_state := some crdt_state,
                                 crdt_version := d.crdt_version + 1,
                                 last_edited_at := some now })
              db.documents) },
         some updated)

/-- `DocumentService.get_crdt_state`. -/
def get_crdt_state (db : DB) (document_id : Nat) :
    Option (Option (List Nat) × Nat) :=
  (get_document_by_id db document_id false).map fun d => (d.crdt_state, d.crdt_version)

/-! ## Refresh-token lifecycle (`app/services/auth.py`)

Refresh tokens live in their own table; the auth service only ever touches
that table, so it gets its own state type `AuthDB`. -/

/-- `models.RefreshToken` (the fields the auth service reads or writes).
`models.py` declares `token_hash` with `unique=True`. -/
structure RefreshToken where
  user_id : Nat
  token_hash : Nat
  is_revoked : Bool
  expires_at : Nat
  last_used_at : Option Nat
  revoked_at : Option Nat
deriving DecidableEq, Repr

/-- The `refresh_tokens` table. -/
abbrev AuthDB : Type := List RefreshToken

/-- `AuthService.hash_token` (SHA-256 of the plaintext secret).  The hash
itself is external library code (`hashlib`); the service relies only on it
being collision-free on the secrets in play, so it is modelled as the
identity embedding of abstract secrets. -/
def hash_token (token : Nat) : Nat := token

/-- `AuthService.create_refresh_token`: stores the hash of a fresh secret
with `expires_at = now + ttl` and returns the plaintext.  The `unique=True`
constraint on `token_hash` makes the insert fail (rolling back, state
unchanged) if a row with the same hash already exists. -/
def create_refresh_token (db : AuthDB) (user_id token now ttl : Nat) :
    Except Unit (AuthDB × Nat) :=
  if db.any fun r => r.token_hash == hash_token token then Except.error ()
  else
    Except.ok
      (db ++ [{ user_id := user_id, token_hash := hash_token token,
                is_revoked := false, expires_at := now + ttl,
                last_used_at := none, revoked_at := none }],
       token)

/-- The row filter of `AuthService.verify_refresh_token`'s query:
hash matches, not revoked, not yet expired. -/
def verifyPred (token now : Nat) (r : RefreshToken) : Bool :=
  r.token_hash == hash_token token && r.is_revoked == false
    && Nat.blt now r.expires_at

/-- `AuthService.verify_refresh_token`: look up by hash / unrevoked /
unexpired; on success touch `last_used_at` and return the row. -/
def verify_refresh_token (db : AuthDB) (token now : Nat) :
    AuthDB × Option RefreshToken :=
  match db.find? (verifyPred token now) with
  | none => (db, none)
  | some r =>
      let touched : RefreshToken := { r with last_used_at := some now }
      (touchFirst (verifyPred token now) (fun x => { x with last_used_at := some now }) db,
       some touched)

/-- `AuthService.revoke_refresh_token`: look up by hash alone and flag
`is_revoked`; `false` when no row matches. -/
def revoke_refresh_token (db : AuthDB) (token now : Nat) : AuthDB × Bool :=
  match db.find? (fun r => r.token_hash == hash_token token) with
  | none => (db, false)
  | some _ =>
      (touchFirst (fun r => r.token_hash == hash_token token)
        (fun r => { r with is_revoked := true, revoked_at := some now }) db,
       true)

/-- `AuthService.revoke_all_user_tokens`: flag every unrevoked token of the
user; returns how many were flagged. -/
def revoke_all_user_tokens (db : AuthDB) (user_id now : Nat) : AuthDB × Nat :=
  ((db.map fun r =>
      if r.user_id == user_id && r.is_revoked == false then
        { r with is_revoked := true, revoked_at := some now }
      else r),
   db.countP fun r => r.user_id == user_id && r.is_revoked == false)

/-- One call into the refresh-token lifecycle (each op carries the wall
clock it observes). -/
inductive AuthOp
  | issue (user_id token now ttl : Nat)
  | verify (token now : Nat)
  | revoke (token now : Nat)
  | revokeAll (user_id now : Nat)

/-- The refresh-token table after one service call (error paths leave it
unchanged, as the failed transaction rolls back). -/
def applyAuthOp (db : AuthDB) : AuthOp → AuthDB
  | .issue u t now ttl =>
      match create_refresh_token db u t now ttl with
      | .ok (db₂, _) => db₂
      | .error _ => db
  | .verify t now => (verify_refresh_token db t now).1
  | .revoke t now => (revoke_refresh_token db t now).1
  | .revokeAll u now => (revoke_all_user_tokens db u now).1

/-- The refresh-token table after a sequence of service calls. -/
def applyAuthOps (db : AuthDB) (ops : List AuthOp) : AuthDB :=
  ops.foldl applyAuthOp db

/-- Exactly one row carries hash `h`, and that row belongs to user `u` and
expires at `e` — the shape of the table after issuing `u` a fresh token. -/
def TokTracked (db : AuthDB) (h u e : Nat) : Prop :=
  db.countP (fun r => r.token_hash == h) = 1 ∧
    ∀ r ∈ db, r.token_hash = h → r.user_id = u ∧ r.expires_at = e

/-- Every row carrying hash `h` is revoked. -/
def TokAllRevoked (db : AuthDB) (h : Nat) : Prop :=
  ∀ r ∈ db, r.token_hash = h → r.is_revoked = true

/-! ## Invitation service (`app/services/invitation.py`) and its router
(`app/routers/invitations.py`) -/

/-- The row filter used both by the dedup lookup inside
`InvitationService.create_invitation` and by the partial unique index
`uq_document_invitee_email_pending` in `models.py`. -/
def pendingFor (document_id : Nat) (invitee_email : String) (i : Invitation) : Bool :=
  i.document_id == document_id && i.invitee_email == invitee_email
    && i.status == InvitationStatus.PENDING

/-- `InvitationService.get_invitation_by_id`. -/
def get_invitation_by_id (db : DB) (invitation_id : Nat) : Option Invitation :=
  db.invitations.find? fun i => i.id == invitation_id

/-- The `db.commit()` of `InvitationService.create_invitation`'s insert
path always violates a constraint: the service never sets
`Invitation.token_hash`, which `models.py` declares `nullable=False` with
no default (and nothing else populates it), so the insert raises a NOT
NULL violation and the transaction rolls back. -/
inductive CreateError
  | tokenHashNotNull

/-- `InvitationService.create_invitation`: if a PENDING invitation for
(document, email) already exists, update it in place (role, message, expiry,
inviter re-stamped) — no new row, so the commit succeeds.  Otherwise the
service builds a fresh PENDING row (pre-linked to an existing account by
email, `new_id` standing for the freshly drawn UUID) and inserts it — but
it never sets `token_hash`, declared NOT NULL without default in
`models.py`, so that commit always raises and rolls back, storing
nothing. -/
def create_invitation (db : DB) (document_id invited_by_id : Nat)
    (invitee_email : String) (role : DocumentRole) (message : Option String)
    (expire_days : Nat) (new_id : Nat) (now : Nat) :
    Except CreateError (DB × Invitation) :=
  let _invitee := db.users.find? fun u => u.email == invitee_email
  match db.invitations.find? (pendingFor document_id invitee_email) with
  | some existing =>
      let updated : Invitation :=
        { existing with role := role, message := message,
                        expires_at := now + expire_days,
                        invited_by_id := invited_by_id }
      Except.ok
        ({ db with invitations :=
            (touchFirst (pendingFor document_id invitee_email)
              (fun i => { i with role := role, message := message,
                                 expires_at := now + expire_days,
                                 invited_by_id := invited_by_id })
              db.invitations) },
         updated)
  | none => Except.error CreateError.tokenHashNotNull

/-- `InvitationService.get_pending_invitations_for_user`: PENDING, not yet
expired, matched by linked user id or by email.  (The router only returns
this set; its `created_at` ordering does not change membership and is not
modelled.) -/
def get_pending_invitations_for_user (db : DB) (user_id : Nat)
    (user_email : String) (now : Nat) : List Invitation :=
  db.invitations.filter fun i =>
    i.status == InvitationStatus.PENDING && Nat.blt now i.expires_at
      && (i.invitee_id == some user_id || i.invitee_email == user_email)

/-- The `db.commit()` of `InvitationService.accept_invitation` violates
`uq_document_user_permission` and rolls back when a permission row for the
pair already exists. -/
inductive AcceptError
  | uniqueViolation

/-- `InvitationService.accept_invitation`: transition to ACCEPTED, stamp
`responded_at`, bind `invitee_id`, and insert (not upsert) a Permission at
the invitation's role; the whole transaction fails if the (document, user)
permission pair already exists. -/
def accept_invitation (db : DB) (invitation : Invitation) (user_id : Nat)
    (now : Nat) : Except AcceptError (DB × DocumentPermission) :=
  if (get_user_permission db invitation.document_id user_id).isSome then
    Except.error AcceptError.uniqueViolation
  else
    let permission : DocumentPermission :=
      { document_id := invitation.document_id, user_id := user_id,
        role := invitation.role, granted_by_id := some invitation.invited_by_id,
        granted_at := now }
    Except.ok
      ({ db with
          invitations :=
            (touchFirst (fun i => i.id == invitation.id)
              (fun i => { i with status := InvitationStatus.ACCEPTED,
                                 responded_at := some now,
                                 invitee_id := some user_id })
              db.invitations),
          permissions := db.permissions ++ [permission] },
       permission)

/-- `InvitationService.decline_invitation`. -/
def decline_invitation (db : DB) (invitation : Invitation) (now : Nat) : DB :=
  { db with invitations :=
      (touchFirst (fun i => i.id == invitation.id)
        (fun i => { i with status := InvitationStatus.DECLINED,
                           responded_at := some now })
        db.invitations) }

/-- `InvitationService.cancel_invitation`: hard-delete, legal only from
PENDING. -/
def cancel_invitation (db : DB) (invitation : Invitation) : DB × Bool :=
  if invitation.status != InvitationStatus.PENDING then (db, false)
  else
    ({ db with invitations := db.invitations.eraseP fun i => i.id == invitation.id },
     true)

/-- `InvitationService.expire_old_invitations`: sweep every PENDING
invitation whose `expires_at <= now` to EXPIRED; returns the count. -/
def expire_old_invitations (db : DB) (now : Nat) : DB × Nat :=
  (({ db with invitations :=
      (db.invitations.map fun i =>
        if i.status == InvitationStatus.PENDING && Nat.ble i.expires_at now then
          { i with status := InvitationStatus.EXPIRED }
        else i) }),
   db.invitations.countP fun i =>
     i.status == InvitationStatus.PENDING && Nat.ble i.expires_at now)

/-- `InvitationService.can_invite_to_document`: role must be OWNER or
EDITOR. -/
def can_invite_to_document (db : DB) (document_id inviter_id : Nat) : Bool :=
  match get_user_role db document_id inviter_id with
  | some DocumentRole.OWNER => true
  | some DocumentRole.EDITOR => true
  | _ => false

/-- `InvitationService.is_already_collaborator`: the email resolves to an
account that already holds a permission on the document. -/
def is_already_collaborator (db : DB) (document_id : Nat) (email : String) : Bool :=
  match db.users.find? (fun u => u.email == email) with
  | none => false
  | some user => (get_user_permission db document_id user.id).isSome

/-- Rejections of `POST /invitations` (`routers/invitations.py`,
`create_invitation`); `integrity` is the uncaught commit-time constraint
violation surfacing as an internal error. -/
inductive CreateInvError
  | forbidden
  | alreadyCollaborator
  | selfInvite
  | integrity

/-- The body of `POST /invitations`. -/
structure InvitationCreateReq where
  document_id : Nat
  invitee_email : String
  role : DocumentRole
  message : Option String
deriving DecidableEq, Repr

/-- The `POST /invitations` route: inviter must hold EDITOR or OWNER, the
invitee must not already be a collaborator, self-invitation is rejected;
then the service re-stamps an existing PENDING invitation (a fresh insert
always fails at commit — see `create_invitation` — surfacing as an
uncaught internal error).  Note: no check on the requested role is
performed anywhere on this path. -/
def create_invitation_route (db : DB) (current_user : User)
    (req : InvitationCreateReq) (expire_days new_id now : Nat) :
    DB × Except CreateInvError Invitation :=
  if !can_invite_to_document db req.document_id current_user.id then
    (db, Except.error CreateInvError.forbidden)
  else if is_already_collaborator db req.document_id req.invitee_email then
    (db, Except.error CreateInvError.alreadyCollaborator)
  else if req.invitee_email == current_user.email then
    (db, Except.error CreateInvError.selfInvite)
  else
    match create_invitation db req.document_id current_user.id req.invitee_email
        req.role req.message expire_days new_id now with
    | Except.ok (db₂, invitation) => (db₂, Except.ok invitation)
    | Except.error _ => (db, Except.error CreateInvError.integrity)

/-- Rejections of `POST /invitations/{id}/respond`
(`routers/invitations.py`, `respond_to_invitation`).
`alreadyResponded` carries the invitation's current status, which the route
surfaces in its error detail. -/
inductive RespondError
  | notFound
  | forbidden
  | alreadyResponded (current : InvitationStatus)
  | integrity

/-- The success payload of `POST /invitations/{id}/respond`. -/
inductive RespondResult
  | accepted (role : DocumentRole) (document_id : Nat)
  | declined
deriving DecidableEq, Repr

/-- The `POST /invitations/{id}/respond` route: 404 when absent, 403 unless
the caller matches the linked invitee id or the invitee email, conflict
naming the current status unless PENDING, then accept (grant permission)
or decline. -/
def respond_to_invitation (db : DB) (invitation_id : Nat) (current_user : User)
    (accept : Bool) (now : Nat) : DB × Except RespondError RespondResult :=
  match get_invitation_by_id db invitation_id with
  | none => (db, Except.error RespondError.notFound)
  | some invitation =>
      if !(invitation.invitee_id == some current_user.id
            || invitation.invitee_email == current_user.email) then
        (db, Except.error RespondError.forbidden)
      else if invitation.status != InvitationStatus.PENDING then
        (db, Except.error (RespondError.alreadyResponded invitation.status))
      else if accept then
        match accept_invitation db invitation current_user.id now with
        | .ok (db₂, permission) =>
            (db₂, Except.ok (RespondResult.accepted permission.role invitation.document_id))
        | .error _ => (db, Except.error RespondError.integrity)
      else
        (decline_invitation db invitation now, Except.ok RespondResult.declined)

/-- The `DELETE /invitations/{id}` route: only the inviter may cancel, and
only while PENDING. -/
def cancel_invitation_route (db : DB) (invitation_id : Nat)
    (current_user : User) : DB × Except Unit Unit :=
  match get_invitation_by_id db invitation_id with
  | none => (db, Except.error ())
  | some invitation =>
      if invitation.invited_by_id != current_user.id then (db, Except.error ())
      else
        match cancel_invitation db invitation with
        | (db₂, true) => (db₂, Except.ok ())
        | (_, false) => (db, Except.error ())

/-- One call into the invitation lifecycle (each op carries the wall clock
it observes). -/
inductive InvOp
  | create (current_user : User) (req : InvitationCreateReq)
      (expire_days new_id now : Nat)
  | respond (invitation_id : Nat) (current_user : User) (accept : Bool) (now : Nat)
  | cancel (invitation_id : Nat) (current_user : User)
  | sweep (now : Nat)

/-- The database after one invitation-lifecycle call (rejections leave it
unchanged). -/
def applyInvOp (db : DB) : InvOp → DB
  | .create u req days nid now => (create_invitation_route db u req days nid now).1
  | .respond iid u acc now => (respond_to_invitation db iid u acc now).1
  | .cancel iid u => (cancel_invitation_route db iid u).1
  | .sweep now => (expire_old_invitations db now).1

/-- The database after a sequence of invitation-lifecycle calls. -/
def applyInvOps (db : DB) (ops : List InvOp) : DB :=
  ops.foldl applyInvOp db

/-- Invariant of §3 of the spec: at most one PENDING invitation per
(document, invitee_email) pair. -/
def atMostOnePending (db : DB) : Prop :=
  ∀ document_id invitee_email,
    db.invitations.countP (pendingFor document_id invitee_email) ≤ 1

/-! ## Concrete fixtures used by the witnesses and counterexamples -/

/-- Fixture: a user. -/
def aliceU : User := { id := 1, email := "alice@example.com" }

/-- Fixture: another user. -/
def bobU : User := { id := 2, email := "bob@example.com" }

/-- Fixture: a live private document owned by alice, at CRDT version 0. -/
def doc1 : Document :=
  { id := 1, owner_id := 1, crdt_state := none, crdt_version := 0,
    is_archived := false, is_public := false, last_edited_at := none }

/-- Fixture: alice's OWNER permission on `doc1`. -/
def perm1 : DocumentPermission :=
  { document_id := 1, user_id := 1, role := DocumentRole.OWNER,
    granted_by_id := some 1, granted_at := 0 }

/-- Fixture: the state right after alice created `doc1`. -/
def db1 : DB :=
  { users := [aliceU], documents := [doc1], permissions := [perm1],
    invitations := [] }

/-- Fixture: `doc1` after a successful CAS write of blob `[97]` at time 5. -/
def doc1a : Document :=
  { doc1 with crdt_state := some [97], crdt_version := 1,
              last_edited_at := some 5 }

/-- Fixture: `db1` after that write. -/
def db1a : DB := { db1 with documents := [doc1a] }

/-! ## C1 — version-gated CRDT write -/

/-- Fixture: `doc1` archived (still at CRDT version 0). -/
def c1adoc : Document := { doc1 with is_archived := true }

/-- Fixture: a store holding only the archived document. -/
def c1adb : DB :=
  { users := [aliceU], documents := [c1adoc], permissions := [perm1],
    invitations := [] }

/-- C1 counterexample: an archived document with stored version 0 — inside
the claim's "every document with current stored version V" — rejects even a
write carrying `expectedVersion = 0`: `update_crdt_state` looks the
document up excluding archived rows, returns `none` and stores nothing, so
the claim's success branch ("when expectedVersion equals V it stores
newState...") fails. -/
theorem c1_counterexample :
    c1adoc ∈ c1adb.documents ∧
    c1adoc.crdt_version = 0 ∧
    c1adoc.is_archived = true ∧
    update_crdt_state c1adb c1adoc.id [97] (some 0) 5 = (c1adb, none) := by
  exact ⟨List.mem_singleton_self _, rfl, rfl, rfl⟩

/-- C1 as amended (restricted to documents the write's own lookup can see,
i.e. non-archived ones): a write carrying a stale `expectedVersion` returns
a conflict (`none`) and leaves the whole state — blob and version included —
unchanged; a write carrying the current version stores the new blob, bumps
the version by exactly 1, stamps the last-edited time, and that updated row
is what the store now holds. -/
theorem c1_version_gated_write (db : DB) (document_id : Nat) (doc : Document)
    (s : List Nat) (now : Nat)
    (hdoc : get_document_by_id db document_id false = some doc) :
    (∀ v, v ≠ doc.crdt_version →
        update_crdt_state db document_id s (some v) now = (db, none)) ∧
    (∃ db₂ doc₂,
        update_crdt_state db document_id s (some doc.crdt_version) now
          = (db₂, some doc₂) ∧
        doc₂.crdt_state = some s ∧
        doc₂.crdt_version = doc.crdt_version + 1 ∧
        doc₂.last_edited_at = some now ∧
        get_document_by_id db₂ document_id false = some doc₂) := by
  have hpred := List.find?_some hdoc
  constructor
  · intro v hv
    unfold update_crdt_state
    rw [hdoc]
    have : ((some v : Option Nat) != some doc.crdt_version) = true := by
      simp [bne_iff_ne, hv]
    simp [this]
  · unfold update_crdt_state
    simp only [hdoc, Option.isSome_some, Bool.true_and, bne_self_eq_false,
      Bool.false_eq_true, if_false]
    refine ⟨_, _, rfl, rfl, rfl, rfl, ?_⟩
    exact find?_touchFirst hdoc (by
      simp only [Bool.and_eq_true] at hpred ⊢
      exact hpred)

/-- C1 witness: the general statement instantiated at a concrete store
holding a single live document at version 0. -/
theorem c1_witness :
    (∀ v, v ≠ doc1.crdt_version →
        update_crdt_state db1 1 [97] (some v) 5 = (db1, none)) ∧
    (∃ db₂ doc₂,
        update_crdt_state db1 1 [97] (some doc1.crdt_version) 5
          = (db₂, some doc₂) ∧
        doc₂.crdt_state = some [97] ∧
        doc₂.crdt_version = doc1.crdt_version + 1 ∧
        doc₂.last_edited_at = some 5 ∧
        get_document_by_id db₂ 1 false = some doc₂) :=
  c1_version_gated_write db1 1 doc1 [97] 5 rfl

/-! ## C7 — the OWNER permission is not revocable -/

/-- C7: when the held role on the document is OWNER, `revoke_permission`
returns `false` and the state — in particular the permission set — is
exactly what it was before the call. -/
theorem c7_owner_revoke_noop (db : DB) (document_id user_id : Nat)
    (p : DocumentPermission)
    (hp : get_user_permission db document_id user_id = some p)
    (howner : p.role = DocumentRole.OWNER) :
    revoke_permission db document_id user_id = (db, false) := by
  unfold revoke_permission
  rw [hp]
  simp [howner]

/-- C7 witness: revoking alice's OWNER permission on her own document is a
no-op returning `false`. -/
theorem c7_witness : revoke_permission db1 1 1 = (db1, false) :=
  c7_owner_revoke_noop db1 1 1 perm1 rfl rfl

/-! ## C9 — archiving silently removes public viewer access -/

/-- C9: the public-document fallback inside `check_access` looks the
document up excluding archived rows, so an archived public document grants
no VIEWER access to a user without an explicit permission. -/
theorem c9_archived_public_no_access (db : DB) (d : Document) (user_id : Nat)
    (hids : (db.documents.map (·.id)).Nodup)
    (hmem : d ∈ db.documents)
    (harch : d.is_archived = true)
    (hrole : get_user_role db d.id user_id = none) :
    check_access db d.id user_id DocumentRole.VIEWER = false := by
  unfold check_access
  rw [hrole]
  have hnone : get_document_by_id db d.id false = none := by
    unfold get_document_by_id
    cases hf : db.documents.find? fun x => x.id == d.id && (false || !x.is_archived) with
    | none => rfl
    | some dd =>
        have hddmem := List.mem_of_find?_eq_some hf
        have hddp := List.find?_some hf
        simp only [Bool.and_eq_true, beq_iff_eq, Bool.false_or, Bool.not_eq_eq_eq_not,
          Bool.not_true] at hddp
        have : dd = d :=
          List.inj_on_of_nodup_map hids hddmem hmem (by simp [hddp.1])
        rw [this, harch] at hddp
        exact absurd hddp.2 (by simp)
  rw [hnone]

/-- C9 witness: an archived public document, a user with no permission — no
viewer access. -/
theorem c9_witness :
    check_access { users := [aliceU],
                   documents := [{ doc1 with is_archived := true, is_public := true }],
                   permissions := [], invitations := [] }
      doc1.id 42 DocumentRole.VIEWER = false :=
  c9_archived_public_no_access _ { doc1 with is_archived := true, is_public := true } 42
    (by decide) (by simp) rfl rfl

/-! ## C8 — public-document viewer fallback -/

/-- Fixture: an archived public document with no permissions at all. -/
def c8db : DB :=
  { users := [aliceU],
    documents := [{ doc1 with is_archived := true, is_public := true }],
    permissions := [], invitations := [] }

/-- C8 counterexample: a *public* document (public flag true) for which a
user with no explicit permission still gets `checkAccess(D,U,VIEWER) =
false` — because the document is archived and the fallback lookup excludes
archived rows.  This refutes C8 as universally stated over all public
documents. -/
theorem c8_counterexample :
    (∃ d ∈ c8db.documents, d.id = 1 ∧ d.is_public = true) ∧
    get_user_role c8db 1 42 = none ∧
    check_access c8db 1 42 DocumentRole.VIEWER = false := by
  refine ⟨⟨_, List.mem_singleton_self _, rfl, rfl⟩, rfl, rfl⟩

/-- C8 as amended: for a *non-archived* public document and a user with no
explicit permission, `checkAccess` grants VIEWER and refuses EDITOR. -/
theorem c8_public_viewer_access (db : DB) (d : Document) (user_id : Nat)
    (hids : (db.documents.map (·.id)).Nodup)
    (hmem : d ∈ db.documents)
    (hlive : d.is_archived = false)
    (hpub : d.is_public = true)
    (hrole : get_user_role db d.id user_id = none) :
    check_access db d.id user_id DocumentRole.VIEWER = true ∧
    check_access db d.id user_id DocumentRole.EDITOR = false := by
  have hget : get_document_by_id db d.id false = some d := by
    unfold get_document_by_id
    cases hf : db.documents.find? fun x => x.id == d.id && (false || !x.is_archived) with
    | none =>
        rw [List.find?_eq_none] at hf
        exact absurd (by simp [hlive] : (d.id == d.id && (false || !d.is_archived)) = true)
          (hf d hmem)
    | some dd =>
        have hddmem := List.mem_of_find?_eq_some hf
        have hddp := List.find?_some hf
        simp only [Bool.and_eq_true, beq_iff_eq] at hddp
        have : dd = d :=
          List.inj_on_of_nodup_map hids hddmem hmem (by simp [hddp.1])
        rw [this]
  constructor
  · unfold check_access
    rw [hrole, hget]
    simp [hpub]
  · unfold check_access
    rw [hrole, hget]
    simp

/-- C8 witness for the amended statement: a live public document, a user
with no permission. -/
theorem c8_witness :
    check_access { users := [aliceU],
                   documents := [{ doc1 with is_public := true }],
                   permissions := [], invitations := [] }
      doc1.id 42 DocumentRole.VIEWER = true ∧
    check_access { users := [aliceU],
                   documents := [{ doc1 with is_public := true }],
                   permissions := [], invitations := [] }
      doc1.id 42 DocumentRole.EDITOR = false :=
  c8_public_viewer_access _ { doc1 with is_public := true } 42
    (by decide) (by simp) rfl rfl rfl

/-! ## C2 — the sharing path never validates the requested role -/

/-- Fixture: alice (the document owner) invites bob's email at role OWNER. -/
def c2req : InvitationCreateReq :=
  { document_id := 1, invitee_email := "bob@example.com",
    role := DocumentRole.OWNER, message := none }

/-- Fixture: an existing PENDING VIEWER invitation for bob on `doc1`. -/
def c2invP : Invitation :=
  { id := 10, document_id := 1, invited_by_id := 1,
    invitee_email := "bob@example.com", invitee_id := none,
    role := DocumentRole.VIEWER, status := InvitationStatus.PENDING,
    message := some "have a look", expires_at := 100, responded_at := none }

/-- Fixture: the state holding that pending invitation. -/
def c2db : DB :=
  { users := [aliceU], documents := [doc1], permissions := [perm1],
    invitations := [c2invP] }

/-- Fixture: `c2invP` as the route re-stamps it — role OWNER, the request's
(empty) message, fresh expiry, re-stamped inviter. -/
def c2invOwner : Invitation :=
  { c2invP with role := DocumentRole.OWNER, message := none,
                expires_at := 0 + 7, invited_by_id := 1 }

/-- C2, evaluated at the failing input: the invitation-create route accepts
a requested role of OWNER — every guard passes, there is no role check
anywhere on the path, and the existing PENDING invitation is re-stamped to
role OWNER and committed — while the direct permission-grant route rejects
the very same role.  The "same validation as grantPermission" required by
the claim does not exist on the sharing path.  (With no existing PENDING
row the OWNER request equally passes every validation; the commit then
fails only with the role-independent NOT NULL violation on the
never-populated `token_hash`.) -/
theorem c2_owner_invitation_not_rejected :
    create_invitation_route c2db aliceU c2req 7 11 0
      = ({ c2db with invitations := [c2invOwner] }, Except.ok c2invOwner) ∧
    c2invOwner.role = DocumentRole.OWNER ∧
    c2invOwner.status = InvitationStatus.PENDING ∧
    create_invitation_route db1 aliceU c2req 7 11 0
      = (db1, Except.error CreateInvError.integrity) ∧
    grant_permission_route c2db 1 2 DocumentRole.OWNER aliceU 0
      = (c2db, Except.error ()) := by
  exact ⟨rfl, rfl, rfl, rfl, rfl⟩

/-! ## C3 — accepting an invitation inserts (never updates) a Permission -/

/-- Fixture: bob already holds a VIEWER permission on `doc1`. -/
def c3perm : DocumentPermission :=
  { document_id := 1, user_id := 2, role := DocumentRole.VIEWER,
    granted_by_id := some 1, granted_at := 0 }

/-- Fixture: a PENDING EDITOR invitation for bob on `doc1`. -/
def c3inv : Invitation :=
  { id := 5, document_id := 1, invited_by_id := 1,
    invitee_email := "bob@example.com", invitee_id := some 2,
    role := DocumentRole.EDITOR, status := InvitationStatus.PENDING,
    message := none, expires_at := 100, responded_at := none }

/-- Fixture: state in which bob is both invited (EDITOR, PENDING) and —
through some other grant — already holds a VIEWER permission. -/
def c3db : DB :=
  { users := [aliceU, bobU], documents := [doc1],
    permissions := [perm1, c3perm], invitations := [c3inv] }

/-- C3 counterexample: when a Permission for the (document, user) pair
already exists, accepting does *not* update its role — the unconditional
insert violates `uq_document_user_permission` and the accept fails (the
route surfaces an internal error and the state is unchanged), refuting the
claim's "updates its role instead" branch. -/
theorem c3_counterexample :
    c3inv.status = InvitationStatus.PENDING ∧
    get_user_permission c3db c3inv.document_id bobU.id = some c3perm ∧
    c3perm.role ≠ c3inv.role ∧
    accept_invitation c3db c3inv bobU.id 50
      = Except.error AcceptError.uniqueViolation ∧
    respond_to_invitation c3db 5 bobU true 50
      = (c3db, Except.error RespondError.integrity) := by
  exact ⟨rfl, rfl, by decide, rfl, rfl⟩

/-- C3 as amended: accepting a PENDING invitation transitions it to
ACCEPTED, stamps the responded time, binds the invitee id, and — when no
Permission yet exists for the (document, user) pair — inserts a Permission
at the invitation's role, leaving exactly one Permission row for the pair;
when a Permission already exists the accept fails with a unique-constraint
violation instead of updating its role. -/
theorem c3_accept_grants_once (db : DB) (inv : Invitation) (user_id now : Nat)
    (hinv : get_invitation_by_id db inv.id = some inv)
    (hperm : get_user_permission db inv.document_id user_id = none) :
    ∃ db₂ permission,
      accept_invitation db inv user_id now = Except.ok (db₂, permission) ∧
      permission.document_id = inv.document_id ∧
      permission.user_id = user_id ∧
      permission.role = inv.role ∧
      permission.granted_by_id = some inv.invited_by_id ∧
      db₂.permissions.countP
        (fun p => p.document_id == inv.document_id && p.user_id == user_id) = 1 ∧
      get_invitation_by_id db₂ inv.id
        = some { inv with status := InvitationStatus.ACCEPTED,
                          responded_at := some now,
                          invitee_id := some user_id } := by
  have hzero : db.permissions.countP
      (fun p => p.document_id == inv.document_id && p.user_id == user_id) = 0 := by
    rw [List.countP_eq_zero]
    rw [get_user_permission, List.find?_eq_none] at hperm
    exact hperm
  unfold accept_invitation
  rw [hperm]
  refine ⟨_, _, rfl, rfl, rfl, rfl, rfl, ?_, ?_⟩
  · simp [List.countP_append, hzero, List.countP_cons]
  · exact find?_touchFirst hinv (by simp)

/-- C3 witness for the amended statement: bob, holding no permission yet,
accepts the EDITOR invitation. -/
theorem c3_witness :
    ∃ db₂ permission,
      accept_invitation { users := [aliceU, bobU], documents := [doc1],
                          permissions := [perm1], invitations := [c3inv] }
          c3inv 2 50
        = Except.ok (db₂, permission) ∧
      permission.document_id = c3inv.document_id ∧
      permission.user_id = 2 ∧
      permission.role = c3inv.role ∧
      permission.granted_by_id = some c3inv.invited_by_id ∧
      db₂.permissions.countP
        (fun p => p.document_id == c3inv.document_id && p.user_id == 2) = 1 ∧
      get_invitation_by_id db₂ c3inv.id
        = some { c3inv with status := InvitationStatus.ACCEPTED,
                            responded_at := some 50,
                            invitee_id := some 2 } :=
  c3_accept_grants_once _ c3inv 2 50 rfl rfl

/-! ## Respond-route helper lemmas (shared by C4 and C10) -/

/-- Responding to a non-PENDING invitation always fails without touching the
state: with a matching invitee the error is the conflict naming the current
status, otherwise the identity refusal. -/
theorem respond_nonPending_eq (db : DB) (invitation_id : Nat) (u : User)
    (accept : Bool) (now : Nat) (inv : Invitation)
    (hget : get_invitation_by_id db invitation_id = some inv)
    (hst : inv.status ≠ InvitationStatus.PENDING) :
    respond_to_invitation db invitation_id u accept now
      = (db, Except.error
          (if inv.invitee_id == some u.id || inv.invitee_email == u.email then
            RespondError.alreadyResponded inv.status
          else RespondError.forbidden)) := by
  unfold respond_to_invitation
  rw [hget]
  by_cases hi : (inv.invitee_id == some u.id || inv.invitee_email == u.email) = true
  · simp [hi, bne_iff_ne, hst]
  · simp [Bool.not_eq_true] at hi
    simp [hi]

/-- A successful respond leaves the invitation out of PENDING. -/
theorem respond_ok_nonPending (db : DB) (invitation_id : Nat) (u : User)
    (accept : Bool) (now : Nat) (db₂ : DB) (res : RespondResult)
    (h : respond_to_invitation db invitation_id u accept now = (db₂, Except.ok res)) :
    ∃ inv₂, get_invitation_by_id db₂ invitation_id = some inv₂ ∧
      (inv₂.status = InvitationStatus.ACCEPTED ∨
        inv₂.status = InvitationStatus.DECLINED) := by
  unfold respond_to_invitation at h
  split at h
  · simp at h
  case h_2 inv hget =>
    have hid : inv.id = invitation_id := by simpa using List.find?_some hget
    subst hid
    split at h
    · simp at h
    · split at h
      · simp at h
      · split at h
        · -- accept branch
          split at h
          case h_1 db₃ p hacc =>
            have hdb : db₃ = db₂ := congrArg Prod.fst h
            subst hdb
            unfold accept_invitation at hacc
            split at hacc
            · simp at hacc
            · injection hacc with h2
              injection h2 with h3 h4
              rw [← h3]
              exact ⟨{ inv with status := InvitationStatus.ACCEPTED, responded_at := some now, invitee_id := some u.id }, find?_touchFirst hget (by simp), Or.inl rfl⟩
          case h_2 e hacc => simp at h
        · -- decline branch
          have hdb : decline_invitation db inv now = db₂ := congrArg Prod.fst h
          rw [← hdb]
          exact ⟨{ inv with status := InvitationStatus.DECLINED, responded_at := some now }, find?_touchFirst hget (by simp), Or.inr rfl⟩

/-! ## C4 — single resolution of invitations -/

/-- C4: responding to a non-PENDING invitation fails and changes nothing —
for the invitee the error is a conflict naming the current status; and
consequently, once a respond has succeeded (transitioning the invitation
out of PENDING), every further respond on the same invitation fails and
leaves the state (its permission rows included) unchanged. -/
theorem c4_single_resolution :
    (∀ db invitation_id u accept now inv,
      get_invitation_by_id db invitation_id = some inv →
      inv.status ≠ InvitationStatus.PENDING →
      (respond_to_invitation db invitation_id u accept now).1 = db ∧
      (∃ e, (respond_to_invitation db invitation_id u accept now).2
          = Except.error e) ∧
      ((inv.invitee_id == some u.id || inv.invitee_email == u.email) = true →
        (respond_to_invitation db invitation_id u accept now).2
          = Except.error (RespondError.alreadyResponded inv.status))) ∧
    (∀ db invitation_id u accept now db₂ res,
      respond_to_invitation db invitation_id u accept now = (db₂, Except.ok res) →
      ∀ u₂ accept₂ now₂,
        (respond_to_invitation db₂ invitation_id u₂ accept₂ now₂).1 = db₂ ∧
        (respond_to_invitation db₂ invitation_id u₂ accept₂ now₂).1.permissions
          = db₂.permissions ∧
        (∃ e, (respond_to_invitation db₂ invitation_id u₂ accept₂ now₂).2
            = Except.error e)) := by
  constructor
  · intro db invitation_id u accept now inv hget hst
    rw [respond_nonPending_eq db invitation_id u accept now inv hget hst]
    refine ⟨rfl, ⟨_, rfl⟩, fun hi => ?_⟩
    simp [hi]
  · intro db invitation_id u accept now db₂ res h u₂ accept₂ now₂
    obtain ⟨inv₂, hget₂, hst₂⟩ :=
      respond_ok_nonPending db invitation_id u accept now db₂ res h
    have hne : inv₂.status ≠ InvitationStatus.PENDING := by
      rcases hst₂ with h' | h' <;> rw [h'] <;> exact fun hc => by cases hc
    rw [respond_nonPending_eq db₂ invitation_id u₂ accept₂ now₂ inv₂ hget₂ hne]
    exact ⟨rfl, rfl, _, rfl⟩

/-- Fixture: an already-ACCEPTED invitation for bob. -/
def c4invA : Invitation :=
  { id := 6, document_id := 1, invited_by_id := 1,
    invitee_email := "bob@example.com", invitee_id := some 2,
    role := DocumentRole.EDITOR, status := InvitationStatus.ACCEPTED,
    message := none, expires_at := 100, responded_at := some 40 }

/-- Fixture: a PENDING EDITOR invitation for bob (C4's second-respond
scenario). -/
def c4invP : Invitation :=
  { id := 7, document_id := 1, invited_by_id := 1,
    invitee_email := "bob@example.com", invitee_id := some 2,
    role := DocumentRole.EDITOR, status := InvitationStatus.PENDING,
    message := none, expires_at := 100, responded_at := none }

/-- Fixture: state holding both C4 invitations. -/
def c4db : DB :=
  { users := [aliceU, bobU], documents := [doc1], permissions := [perm1],
    invitations := [c4invA, c4invP] }

/-- C4 witness: responding to the ACCEPTED invitation fails with the
conflict naming ACCEPTED and changes nothing; and after bob declines the
PENDING one, a second respond fails and leaves the state unchanged. -/
theorem c4_witness :
    ((respond_to_invitation c4db 6 bobU true 50).1 = c4db ∧
      (∃ e, (respond_to_invitation c4db 6 bobU true 50).2 = Except.error e) ∧
      ((c4invA.invitee_id == some bobU.id
          || c4invA.invitee_email == bobU.email) = true →
        (respond_to_invitation c4db 6 bobU true 50).2
          = Except.error (RespondError.alreadyResponded c4invA.status))) ∧
    ((respond_to_invitation (respond_to_invitation c4db 7 bobU false 50).1
        7 bobU true 60).1 = (respond_to_invitation c4db 7 bobU false 50).1 ∧
      (respond_to_invitation (respond_to_invitation c4db 7 bobU false 50).1
        7 bobU true 60).1.permissions
        = (respond_to_invitation c4db 7 bobU false 50).1.permissions ∧
      (∃ e, (respond_to_invitation (respond_to_invitation c4db 7 bobU false 50).1
          7 bobU true 60).2 = Except.error e)) := by
  constructor
  · exact c4_single_resolution.1 c4db 6 bobU true 50 c4invA rfl (by decide)
  · exact c4_single_resolution.2 c4db 7 bobU false 50
      (respond_to_invitation c4db 7 bobU false 50).1 RespondResult.declined rfl
      bobU true 60

/-! ## C10 — the respond path never checks the expiry timestamp -/

/-- C10: an invitation still PENDING but already past `expires_at` (not yet
swept) can still be responded to by its invitee — decline transitions it to
DECLINED, accept (when the invitee holds no permission yet) transitions it
to ACCEPTED and grants the permission at the invitation's role — while the
pending-invitations listing already hides it. -/
theorem c10_stale_pending_respondable (db : DB) (invitation_id : Nat)
    (u : User) (now : Nat) (inv : Invitation)
    (hget : get_invitation_by_id db invitation_id = some inv)
    (hpend : inv.status = InvitationStatus.PENDING)
    (hexp : inv.expires_at < now)
    (hinvitee : (inv.invitee_id == some u.id
        || inv.invitee_email == u.email) = true) :
    (respond_to_invitation db invitation_id u false now
        = (decline_invitation db inv now, Except.ok RespondResult.declined) ∧
      get_invitation_by_id (decline_invitation db inv now) invitation_id
        = some { inv with status := InvitationStatus.DECLINED,
                          responded_at := some now }) ∧
    (get_user_permission db inv.document_id u.id = none →
      ∃ db₂,
        respond_to_invitation db invitation_id u true now
          = (db₂, Except.ok (RespondResult.accepted inv.role inv.document_id)) ∧
        get_invitation_by_id db₂ invitation_id
          = some { inv with status := InvitationStatus.ACCEPTED,
                            responded_at := some now,
                            invitee_id := some u.id } ∧
        ({ document_id := inv.document_id, user_id := u.id, role := inv.role,
           granted_by_id := some inv.invited_by_id, granted_at := now }
            : DocumentPermission) ∈ db₂.permissions ∧
        db₂.permissions.countP
          (fun p => p.document_id == inv.document_id && p.user_id == u.id) = 1) ∧
    inv ∉ get_pending_invitations_for_user db u.id u.email now := by
  have hid : inv.id = invitation_id := by simpa using List.find?_some hget
  subst hid
  refine ⟨⟨?_, ?_⟩, ?_, ?_⟩
  · unfold respond_to_invitation
    simp [hget, hinvitee, hpend]
  · exact find?_touchFirst hget (by simp)
  · intro hperm
    have hzero : db.permissions.countP
        (fun p => p.document_id == inv.document_id && p.user_id == u.id) = 0 := by
      rw [List.countP_eq_zero]
      rw [get_user_permission, List.find?_eq_none] at hperm
      exact hperm
    have hres : respond_to_invitation db inv.id u true now
        = ({ db with
              invitations :=
                (touchFirst (fun i => i.id == inv.id)
                  (fun i => { i with status := InvitationStatus.ACCEPTED,
                                     responded_at := some now,
                                     invitee_id := some u.id })
                  db.invitations),
              permissions := db.permissions ++
                [{ document_id := inv.document_id, user_id := u.id,
                   role := inv.role, granted_by_id := some inv.invited_by_id,
                   granted_at := now }] },
           Except.ok (RespondResult.accepted inv.role inv.document_id)) := by
      unfold respond_to_invitation
      simp only [hget, hinvitee, Bool.not_true, hpend]
      unfold accept_invitation
      simp [hperm]
    refine ⟨_, hres, ?_, ?_, ?_⟩
    · exact find?_touchFirst hget (by simp)
    · simp
    · simp [List.countP_append, hzero, List.countP_cons]
  · intro hmem
    unfold get_pending_invitations_for_user at hmem
    rw [List.mem_filter] at hmem
    have h2 := hmem.2
    simp only [Bool.and_eq_true, Nat.blt_eq] at h2
    exact absurd h2.1.2 (by omega)

/-- Fixture: a PENDING invitation for bob whose expiry (100) is already in
the past at time 200. -/
def c10inv : Invitation :=
  { id := 8, document_id := 1, invited_by_id := 1,
    invitee_email := "bob@example.com", invitee_id := some 2,
    role := DocumentRole.EDITOR, status := InvitationStatus.PENDING,
    message := none, expires_at := 100, responded_at := none }

/-- Fixture: state holding the stale pending invitation. -/
def c10db : DB :=
  { users := [aliceU, bobU], documents := [doc1], permissions := [perm1],
    invitations := [c10inv] }

/-- C10 witness: at time 200 (past the 100 expiry) bob can still decline or
accept, and the invitation is absent from his pending listing. -/
theorem c10_witness :
    (respond_to_invitation c10db 8 bobU false 200
        = (decline_invitation c10db c10inv 200, Except.ok RespondResult.declined) ∧
      get_invitation_by_id (decline_invitation c10db c10inv 200) 8
        = some { c10inv with status := InvitationStatus.DECLINED,
                             responded_at := some 200 }) ∧
    (get_user_permission c10db c10inv.document_id bobU.id = none →
      ∃ db₂,
        respond_to_invitation c10db 8 bobU true 200
          = (db₂, Except.ok (RespondResult.accepted c10inv.role c10inv.document_id)) ∧
        get_invitation_by_id db₂ 8
          = some { c10inv with status := InvitationStatus.ACCEPTED,
                               responded_at := some 200,
                               invitee_id := some bobU.id } ∧
        ({ document_id := c10inv.document_id, user_id := bobU.id,
           role := c10inv.role, granted_by_id := some c10inv.invited_by_id,
           granted_at := 200 } : DocumentPermission) ∈ db₂.permissions ∧
        db₂.permissions.countP
          (fun p => p.document_id == c10inv.document_id && p.user_id == bobU.id)
          = 1) ∧
    c10inv ∉ get_pending_invitations_for_user c10db bobU.id bobU.email 200 :=
  c10_stale_pending_respondable c10db 8 bobU 200 c10inv rfl rfl
    (by decide) (by decide)

/-! ## C5 — at most one PENDING invitation per (document, email) pair -/

/-- Equation: `create_invitation` with no PENDING row for the pair takes
the insert path, which always fails the commit (NOT NULL `token_hash`) and
stores nothing. -/
theorem create_invitation_error (db : DB) (document_id invited_by_id : Nat)
    (invitee_email : String) (role : DocumentRole) (message : Option String)
    (expire_days new_id now : Nat)
    (hfind : db.invitations.find? (pendingFor document_id invitee_email) = none) :
    create_invitation db document_id invited_by_id invitee_email role message
        expire_days new_id now
      = Except.error CreateError.tokenHashNotNull := by
  unfold create_invitation
  simp only [hfind]

/-- Equation: `create_invitation` with an existing PENDING row for the pair
re-stamps that row in place and commits. -/
theorem create_invitation_update (db : DB) (document_id invited_by_id : Nat)
    (invitee_email : String) (role : DocumentRole) (message : Option String)
    (expire_days new_id now : Nat) (existing : Invitation)
    (hfind : db.invitations.find? (pendingFor document_id invitee_email)
        = some existing) :
    create_invitation db document_id invited_by_id invitee_email role message
        expire_days new_id now
      = Except.ok
          ({ db with invitations :=
              (touchFirst (pendingFor document_id invitee_email)
                (fun i => { i with role := role, message := message,
                                   expires_at := now + expire_days,
                                   invited_by_id := invited_by_id })
                db.invitations) },
           { existing with role := role, message := message,
                           expires_at := now + expire_days,
                           invited_by_id := invited_by_id }) := by
  unfold create_invitation
  simp only [hfind]

/-- A create that commits preserves the one-PENDING-per-pair invariant. -/
theorem create_invitation_preserves (db : DB) (document_id invited_by_id : Nat)
    (invitee_email : String) (role : DocumentRole) (message : Option String)
    (expire_days new_id now : Nat) (db₂ : DB) (invitation : Invitation)
    (heq : create_invitation db document_id invited_by_id invitee_email role
        message expire_days new_id now = Except.ok (db₂, invitation))
    (h : atMostOnePending db) : atMostOnePending db₂ := by
  cases hfind : db.invitations.find? (pendingFor document_id invitee_email) with
  | some existing =>
      rw [create_invitation_update db document_id invited_by_id invitee_email
        role message expire_days new_id now existing hfind] at heq
      injection heq with heq₂
      have hdb : ({ db with invitations :=
          (touchFirst (pendingFor document_id invitee_email)
            (fun i => { i with role := role, message := message,
                               expires_at := now + expire_days,
                               invited_by_id := invited_by_id })
            db.invitations) } : DB) = db₂ := congrArg Prod.fst heq₂
      rw [← hdb]
      intro d e
      have hq : ∀ i : Invitation,
          pendingFor d e ({ i with role := role, message := message,
                                   expires_at := now + expire_days,
                                   invited_by_id := invited_by_id })
            = pendingFor d e i := fun i => rfl
      calc (touchFirst (pendingFor document_id invitee_email)
              (fun i => { i with role := role, message := message,
                                 expires_at := now + expire_days,
                                 invited_by_id := invited_by_id })
              db.invitations).countP (pendingFor d e)
          = db.invitations.countP (pendingFor d e) := countP_touchFirst hq
        _ ≤ 1 := h d e
  | none =>
      rw [create_invitation_error db document_id invited_by_id invitee_email
        role message expire_days new_id now hfind] at heq
      exact absurd heq (by simp)

/-- The create route preserves the invariant (rejections and the failing
insert change nothing). -/
theorem create_route_preserves (db : DB) (u : User) (req : InvitationCreateReq)
    (expire_days new_id now : Nat) (h : atMostOnePending db) :
    atMostOnePending (create_invitation_route db u req expire_days new_id now).1 := by
  unfold create_invitation_route
  split
  · exact h
  · split
    · exact h
    · split
      · exact h
      · split
        case h_1 db₂ invitation heq =>
          exact create_invitation_preserves db req.document_id u.id
            req.invitee_email req.role req.message expire_days new_id now
            db₂ invitation heq h
        case h_2 => exact h

/-- The respond route preserves the invariant: it only ever moves rows out
of PENDING. -/
theorem respond_preserves (db : DB) (invitation_id : Nat) (u : User)
    (accept : Bool) (now : Nat) (h : atMostOnePending db) :
    atMostOnePending (respond_to_invitation db invitation_id u accept now).1 := by
  unfold respond_to_invitation
  split
  · exact h
  case h_2 inv hget =>
    split
    · exact h
    · split
      · exact h
      · split
        · split
          case h_1 db₃ p hacc =>
            unfold accept_invitation at hacc
            split at hacc
            · simp at hacc
            · injection hacc with h2
              injection h2 with h3 h4
              intro d e
              have hgoal :
                  (db₃ : DB).invitations
                    = touchFirst (fun i => i.id == inv.id)
                        (fun i => { i with status := InvitationStatus.ACCEPTED,
                                           responded_at := some now,
                                           invitee_id := some u.id })
                        db.invitations := by rw [← h3]
              rw [hgoal]
              refine Nat.le_trans (countP_touchFirst_le ?_) (h d e)
              intro x hx
              exact absurd hx (by simp [pendingFor])
          case h_2 => exact h
        · intro d e
          simp only [decline_invitation]
          refine Nat.le_trans (countP_touchFirst_le ?_) (h d e)
          intro x hx
          exact absurd hx (by simp [pendingFor])

/-- The cancel route preserves the invariant: deleting a row only shrinks
counts. -/
theorem cancel_route_preserves (db : DB) (invitation_id : Nat) (u : User)
    (h : atMostOnePending db) :
    atMostOnePending (cancel_invitation_route db invitation_id u).1 := by
  unfold cancel_invitation_route
  split
  · exact h
  · split
    · exact h
    · split
      case h_1 db₂ heq =>
        unfold cancel_invitation at heq
        split at heq
        · simp at heq
        · injection heq with h3 h4
          intro d e
          rw [← h3]
          exact Nat.le_trans
            (List.Sublist.countP_le _ (List.eraseP_sublist _)) (h d e)
      case h_2 => exact h

/-- The expiry sweep preserves the invariant: it only ever moves rows out
of PENDING. -/
theorem sweep_preserves (db : DB) (now : Nat) (h : atMostOnePending db) :
    atMostOnePending (expire_old_invitations db now).1 := by
  intro d e
  simp only [expire_old_invitations]
  refine Nat.le_trans (countP_map_le ?_) (h d e)
  intro a _ hqa
  by_cases hc : (a.status == InvitationStatus.PENDING
      && Nat.ble a.expires_at now) = true
  · rw [if_pos hc] at hqa
    exact absurd hqa (by simp [pendingFor])
  · rwa [if_neg hc] at hqa

/-- Every invitation-lifecycle call preserves the invariant. -/
theorem applyInvOp_preserves (db : DB) (op : InvOp) (h : atMostOnePending db) :
    atMostOnePending (applyInvOp db op) := by
  cases op with
  | create u req days nid now => exact create_route_preserves db u req days nid now h
  | respond iid u acc now => exact respond_preserves db iid u acc now h
  | cancel iid u => exact cancel_route_preserves db iid u h
  | sweep now => exact sweep_preserves db now h

/-- Any sequence of invitation-lifecycle calls preserves the invariant. -/
theorem applyInvOps_preserves (db : DB) (ops : List InvOp)
    (h : atMostOnePending db) : atMostOnePending (applyInvOps db ops) := by
  induction ops generalizing db with
  | nil => exact h
  | cons op ops ih => exact ih _ (applyInvOp_preserves db op h)

/-- When exactly one row matches `p`, every match left in `touchFirst p f l`
is the image of the row `find?` returned. -/
theorem touchFirst_unique_match {α : Type} {p : α → Bool} {f : α → α}
    {l : List α} {a : α}
    (hcount : l.countP p = 1) (hfind : l.find? p = some a) :
    ∀ j ∈ touchFirst p f l, p j = true → j = f a := by
  induction l with
  | nil => intro j hj; simp [touchFirst] at hj
  | cons b l ih =>
      rw [List.countP_cons] at hcount
      by_cases hb : p b = true
      · rw [List.find?_cons_of_pos _ hb] at hfind
        injection hfind with hba
        subst hba
        intro j hj hpj
        simp only [touchFirst, if_pos hb] at hj
        rcases List.mem_cons.mp hj with rfl | hmem
        · rfl
        · have hl0 : l.countP p = 0 := by
            rw [if_pos hb] at hcount
            omega
          exact absurd hpj (List.countP_eq_zero.mp hl0 j hmem)
      · rw [List.find?_cons_of_neg _ hb] at hfind
        intro j hj hpj
        simp only [touchFirst, if_neg hb] at hj
        rcases List.mem_cons.mp hj with rfl | hmem
        · exact absurd hpj hb
        · have hl1 : l.countP p = 1 := by
            rw [if_neg hb] at hcount
            omega
          exact ih hl1 hfind j hmem hpj

/-- Calling create twice for the same (document, email) pair while a
PENDING row for it exists: both calls take the update path, the single row
is re-stamped in place each time, and afterwards exactly one PENDING row
exists for the pair, carrying the second call's role, message, inviter and
expiry. -/
theorem create_twice_scenario (db : DB) (d ib₁ ib₂ : Nat) (e : String)
    (r₁ r₂ : DocumentRole) (m₁ m₂ : Option String)
    (days₁ days₂ nid₁ nid₂ t₁ t₂ : Nat)
    (hone : db.invitations.countP (pendingFor d e) = 1) :
    ∃ db₁ i₁ db₂ i₂,
      create_invitation db d ib₁ e r₁ m₁ days₁ nid₁ t₁ = Except.ok (db₁, i₁) ∧
      db₁.invitations.countP (pendingFor d e) = 1 ∧
      create_invitation db₁ d ib₂ e r₂ m₂ days₂ nid₂ t₂ = Except.ok (db₂, i₂) ∧
      db₂.invitations.countP (pendingFor d e) = 1 ∧
      i₂.role = r₂ ∧ i₂.message = m₂ ∧ i₂.invited_by_id = ib₂ ∧
      i₂.expires_at = t₂ + days₂ ∧ i₂.status = InvitationStatus.PENDING ∧
      (∀ j ∈ db₂.invitations, pendingFor d e j = true → j = i₂) := by
  have hpos : ∃ x ∈ db.invitations, pendingFor d e x = true := by
    rw [← List.countP_pos_iff, hone]
    exact Nat.one_pos
  have hsome : (db.invitations.find? (pendingFor d e)).isSome = true := by
    rw [List.find?_isSome]
    exact hpos
  obtain ⟨a, hfind⟩ := Option.isSome_iff_exists.mp hsome
  have hpend_a : pendingFor d e a = true := List.find?_some hfind
  have hstat_a : a.status = InvitationStatus.PENDING := by
    have hp := hpend_a
    unfold pendingFor at hp
    simp only [Bool.and_eq_true, beq_iff_eq] at hp
    exact hp.2
  have hq₁ : ∀ i : Invitation,
      pendingFor d e ({ i with role := r₁, message := m₁,
                               expires_at := t₁ + days₁,
                               invited_by_id := ib₁ })
        = pendingFor d e i := fun i => rfl
  have hq₂ : ∀ i : Invitation,
      pendingFor d e ({ i with role := r₂, message := m₂,
                               expires_at := t₂ + days₂,
                               invited_by_id := ib₂ })
        = pendingFor d e i := fun i => rfl
  have hcount₁ :
      (touchFirst (pendingFor d e)
        (fun i => { i with role := r₁, message := m₁,
                           expires_at := t₁ + days₁, invited_by_id := ib₁ })
        db.invitations).countP (pendingFor d e) = 1 :=
    (countP_touchFirst hq₁).trans hone
  have hfind₂ :
      (touchFirst (pendingFor d e)
        (fun i => { i with role := r₁, message := m₁,
                           expires_at := t₁ + days₁, invited_by_id := ib₁ })
        db.invitations).find? (pendingFor d e)
      = some ({ a with role := r₁, message := m₁,
                       expires_at := t₁ + days₁, invited_by_id := ib₁ }) :=
    find?_touchFirst hfind hpend_a
  refine ⟨({ db with invitations :=
      (touchFirst (pendingFor d e)
        (fun i => { i with role := r₁, message := m₁,
                           expires_at := t₁ + days₁, invited_by_id := ib₁ })
        db.invitations) }),
    ({ a with role := r₁, message := m₁, expires_at := t₁ + days₁,
              invited_by_id := ib₁ }),
    ({ db with invitations :=
      (touchFirst (pendingFor d e)
        (fun i => { i with role := r₂, message := m₂,
                           expires_at := t₂ + days₂, invited_by_id := ib₂ })
        (touchFirst (pendingFor d e)
          (fun i => { i with role := r₁, message := m₁,
                             expires_at := t₁ + days₁, invited_by_id := ib₁ })
          db.invitations)) }),
    ({ a with role := r₂, message := m₂, expires_at := t₂ + days₂,
              invited_by_id := ib₂ }),
    create_invitation_update db d ib₁ e r₁ m₁ days₁ nid₁ t₁ a hfind,
    hcount₁,
    create_invitation_update _ d ib₂ e r₂ m₂ days₂ nid₂ t₂
      ({ a with role := r₁, message := m₁, expires_at := t₁ + days₁,
                invited_by_id := ib₁ }) hfind₂,
    (countP_touchFirst hq₂).trans hcount₁,
    rfl, rfl, rfl, rfl, hstat_a, ?_⟩
  intro j hj hpj
  exact touchFirst_unique_match hcount₁ hfind₂ j hj hpj

/-- C5 as amended: (1) starting from any state satisfying the
at-most-one-PENDING-per-(document, email) invariant, every sequence of
invitation-lifecycle operations preserves it; (2) two create calls for the
same pair while a PENDING row exists update that single row in place, the
second call's role, message, inviter and expiry winning, leaving exactly
one PENDING row; (3) a create with no existing PENDING row stores nothing:
its insert always fails the commit with the NOT NULL violation on the
never-populated `token_hash`. -/
theorem c5_at_most_one_pending :
    (∀ db ops, atMostOnePending db → atMostOnePending (applyInvOps db ops)) ∧
    (∀ db d ib₁ ib₂ e r₁ r₂ m₁ m₂ days₁ days₂ nid₁ nid₂ t₁ t₂,
      (db : DB).invitations.countP (pendingFor d e) = 1 →
      ∃ db₁ i₁ db₂ i₂,
        create_invitation db d ib₁ e r₁ m₁ days₁ nid₁ t₁ = Except.ok (db₁, i₁) ∧
        db₁.invitations.countP (pendingFor d e) = 1 ∧
        create_invitation db₁ d ib₂ e r₂ m₂ days₂ nid₂ t₂ = Except.ok (db₂, i₂) ∧
        db₂.invitations.countP (pendingFor d e) = 1 ∧
        i₂.role = r₂ ∧ i₂.message = m₂ ∧ i₂.invited_by_id = ib₂ ∧
        i₂.expires_at = t₂ + days₂ ∧ i₂.status = InvitationStatus.PENDING ∧
        (∀ j ∈ db₂.invitations, pendingFor d e j = true → j = i₂)) ∧
    (∀ db d ib e r m days nid t,
      (db : DB).invitations.find? (pendingFor d e) = none →
      create_invitation db d ib e r m days nid t
        = Except.error CreateError.tokenHashNotNull) :=
  ⟨fun db ops h => applyInvOps_preserves db ops h,
   fun db d ib₁ ib₂ e r₁ r₂ m₁ m₂ days₁ days₂ nid₁ nid₂ t₁ t₂ hone =>
     create_twice_scenario db d ib₁ ib₂ e r₁ r₂ m₁ m₂ days₁ days₂ nid₁ nid₂
       t₁ t₂ hone,
   fun db d ib e r m days nid t hfind =>
     create_invitation_error db d ib e r m days nid t hfind⟩

/-- Fixture: an existing PENDING VIEWER invitation for bob on `doc1`
(C5's re-invite scenario). -/
def c5invP : Invitation :=
  { id := 30, document_id := 1, invited_by_id := 1,
    invitee_email := "bob@example.com", invitee_id := some 2,
    role := DocumentRole.VIEWER, status := InvitationStatus.PENDING,
    message := none, expires_at := 100, responded_at := none }

/-- Fixture: state holding that single pending invitation. -/
def c5db : DB :=
  { users := [aliceU, bobU], documents := [doc1], permissions := [perm1],
    invitations := [c5invP] }

/-- Fixture: a VIEWER invite request for bob on document 1. -/
def c5reqV : InvitationCreateReq :=
  { document_id := 1, invitee_email := "bob@example.com",
    role := DocumentRole.VIEWER, message := none }

/-- Fixture: an EDITOR invite request for bob on document 1. -/
def c5reqE : InvitationCreateReq :=
  { document_id := 1, invitee_email := "bob@example.com",
    role := DocumentRole.EDITOR, message := none }

/-- C5 counterexample: from a clean slate (no PENDING row for the pair) the
first create stores nothing — the insert violates the NOT NULL `token_hash`
constraint and the route surfaces an internal error — so two create calls
with identical (document, inviteeEmail) leave zero PENDING rows, not
exactly one with the second call's fields. -/
theorem c5_counterexample :
    db1.invitations.countP (pendingFor 1 "bob@example.com") = 0 ∧
    create_invitation db1 1 1 "bob@example.com" DocumentRole.VIEWER none 7 21 0
      = Except.error CreateError.tokenHashNotNull ∧
    create_invitation_route db1 aliceU c5reqV 7 21 0
      = (db1, Except.error CreateInvError.integrity) ∧
    (applyInvOps db1
        [InvOp.create aliceU c5reqV 7 21 0,
         InvOp.create aliceU c5reqE 9 22 1]).invitations.countP
      (pendingFor 1 "bob@example.com") = 0 := by
  exact ⟨rfl, rfl, rfl, rfl⟩

/-- C5 witness for the amended statement: the invariant survives a concrete
operation sequence; the double re-invite runs on a store holding one
PENDING row; the clean-slate create errors. -/
theorem c5_witness :
    atMostOnePending (applyInvOps c5db
      [InvOp.create aliceU c5reqE 7 11 0,
       InvOp.create aliceU c5reqV 9 12 1,
       InvOp.sweep 50]) ∧
    (∃ db₁ i₁ db₂ i₂,
      create_invitation c5db 1 1 "bob@example.com" DocumentRole.VIEWER none
          7 21 0 = Except.ok (db₁, i₁) ∧
      db₁.invitations.countP (pendingFor 1 "bob@example.com") = 1 ∧
      create_invitation db₁ 1 1 "bob@example.com" DocumentRole.EDITOR
          (some "hi") 9 22 3 = Except.ok (db₂, i₂) ∧
      db₂.invitations.countP (pendingFor 1 "bob@example.com") = 1 ∧
      i₂.role = DocumentRole.EDITOR ∧ i₂.message = some "hi" ∧
      i₂.invited_by_id = 1 ∧ i₂.expires_at = 3 + 9 ∧
      i₂.status = InvitationStatus.PENDING ∧
      (∀ j ∈ db₂.invitations, pendingFor 1 "bob@example.com" j = true → j = i₂)) ∧
    create_invitation db1 1 1 "bob@example.com" DocumentRole.VIEWER none 7 21 0
      = Except.error CreateError.tokenHashNotNull :=
  ⟨c5_at_most_one_pending.1 c5db
      [InvOp.create aliceU c5reqE 7 11 0,
       InvOp.create aliceU c5reqV 9 12 1,
       InvOp.sweep 50]
      (fun d e => by
        by_cases hd : pendingFor d e c5invP = true
        · simp [c5db, List.countP_cons, hd]
        · simp [c5db, List.countP_cons, hd]),
   c5_at_most_one_pending.2.1 c5db 1 1 1 "bob@example.com" DocumentRole.VIEWER
     DocumentRole.EDITOR none (some "hi") 7 9 21 22 0 3 rfl,
   c5_at_most_one_pending.2.2 db1 1 1 "bob@example.com" DocumentRole.VIEWER
     none 7 21 0 rfl⟩

/-! ## C6 — refresh-token lifecycle lemmas -/

/-- `countP` is unchanged by a `map` whose function preserves the counted
predicate. -/
theorem countP_map_congr {α : Type} {q : α → Bool} {g : α → α} {l : List α}
    (hq : ∀ a ∈ l, q (g a) = q a) : (l.map g).countP q = l.countP q := by
  induction l with
  | nil => rfl
  | cons b l ih =>
    simp only [List.map_cons, List.countP_cons,
      hq b (List.mem_cons_self b l),
      ih fun a ha => hq a (List.mem_cons_of_mem b ha)]

/-- `TokTracked` survives a `touchFirst` whose function preserves hash,
user and expiry. -/
theorem tokTracked_touchFirst {p : RefreshToken → Bool} {f : RefreshToken → RefreshToken}
    {db : AuthDB} {h u e : Nat}
    (hf : ∀ r, (f r).token_hash = r.token_hash ∧ (f r).user_id = r.user_id
      ∧ (f r).expires_at = r.expires_at)
    (ht : TokTracked db h u e) : TokTracked (touchFirst p f db) h u e := by
  constructor
  · rw [countP_touchFirst (fun a => by rw [(hf a).1])]
    exact ht.1
  · intro r hr hrh
    rcases mem_touchFirst hr with hmem | ⟨a, ha, rfl⟩
    · exact ht.2 r hmem hrh
    · have hha : a.token_hash = h := by rw [← (hf a).1]; exact hrh
      have := ht.2 a ha hha
      exact ⟨by rw [(hf a).2.1]; exact this.1, by rw [(hf a).2.2]; exact this.2⟩

/-- `TokTracked` survives a `map` whose function preserves hash, user and
expiry. -/
theorem tokTracked_map {g : RefreshToken → RefreshToken} {db : AuthDB} {h u e : Nat}
    (hg : ∀ r, (g r).token_hash = r.token_hash ∧ (g r).user_id = r.user_id
      ∧ (g r).expires_at = r.expires_at)
    (ht : TokTracked db h u e) : TokTracked (db.map g) h u e := by
  constructor
  · rw [countP_map_congr (fun a _ => by rw [(hg a).1])]
    exact ht.1
  · intro r hr hrh
    rw [List.mem_map] at hr
    obtain ⟨a, ha, rfl⟩ := hr
    have hha : a.token_hash = h := by rw [← (hg a).1]; exact hrh
    have := ht.2 a ha hha
    exact ⟨by rw [(hg a).2.1]; exact this.1, by rw [(hg a).2.2]; exact this.2⟩

/-- `TokAllRevoked` survives a `touchFirst` whose function never clears the
revoked flag. -/
theorem tokAllRevoked_touchFirst {p : RefreshToken → Bool}
    {f : RefreshToken → RefreshToken} {db : AuthDB} {h : Nat}
    (hf : ∀ r, (f r).token_hash = r.token_hash ∧
      ((f r).is_revoked = r.is_revoked ∨ (f r).is_revoked = true))
    (hrv : TokAllRevoked db h) : TokAllRevoked (touchFirst p f db) h := by
  intro r hr hrh
  rcases mem_touchFirst hr with hmem | ⟨a, ha, rfl⟩
  · exact hrv r hmem hrh
  · rcases (hf a).2 with h2 | h2
    · rw [h2]
      exact hrv a ha (by rw [← (hf a).1]; exact hrh)
    · exact h2

/-- `TokAllRevoked` survives a `map` whose function never clears the
revoked flag. -/
theorem tokAllRevoked_map {g : RefreshToken → RefreshToken} {db : AuthDB} {h : Nat}
    (hg : ∀ r, (g r).token_hash = r.token_hash ∧
      ((g r).is_revoked = r.is_revoked ∨ (g r).is_revoked = true))
    (hrv : TokAllRevoked db h) : TokAllRevoked (db.map g) h := by
  intro r hr hrh
  rw [List.mem_map] at hr
  obtain ⟨a, ha, rfl⟩ := hr
  rcases (hg a).2 with h2 | h2
  · rw [h2]
    exact hrv a ha (by rw [← (hg a).1]; exact hrh)
  · exact h2

/-- The row stored by a successful `create_refresh_token`. -/
def issuedToken (u tok now ttl : Nat) : RefreshToken :=
  { user_id := u, token_hash := hash_token tok, is_revoked := false,
    expires_at := now + ttl, last_used_at := none, revoked_at := none }

/-- Equation for the issue op: blocked by the unique hash index when a row
with the same hash exists, otherwise an append. -/
theorem applyAuthOp_issue_eq (db : AuthDB) (u t now ttl : Nat) :
    applyAuthOp db (AuthOp.issue u t now ttl)
      = if db.any (fun r => r.token_hash == hash_token t) then db
        else db ++ [issuedToken u t now ttl] := by
  unfold applyAuthOp create_refresh_token issuedToken
  by_cases hany : db.any (fun r => r.token_hash == hash_token t) = true
  · simp [hany]
  · simp [hany]

/-- The state after a verify: unchanged or a last-used touch. -/
theorem verify_fst_cases (db : AuthDB) (tok now : Nat) :
    (verify_refresh_token db tok now).1 = db ∨
    (verify_refresh_token db tok now).1
      = touchFirst (verifyPred tok now)
          (fun x => { x with last_used_at := some now }) db := by
  unfold verify_refresh_token
  cases h : db.find? (verifyPred tok now) with
  | none => exact Or.inl rfl
  | some r => exact Or.inr rfl

/-- The state after a revoke: unchanged or a revoked-flag touch. -/
theorem revoke_fst_cases (db : AuthDB) (tok now : Nat) :
    (revoke_refresh_token db tok now).1 = db ∨
    (revoke_refresh_token db tok now).1
      = touchFirst (fun r => r.token_hash == hash_token tok)
          (fun r => { r with is_revoked := true, revoked_at := some now }) db := by
  unfold revoke_refresh_token
  cases h : db.find? (fun r => r.token_hash == hash_token tok) with
  | none => exact Or.inl rfl
  | some r => exact Or.inr rfl

/-- A tracked hash is present, so the `any` check of a colliding issue
fires. -/
theorem tracked_hash_mem {db : AuthDB} {h u e : Nat} (ht : TokTracked db h u e) :
    ∃ a ∈ db, (a.token_hash == h) = true := by
  rw [← List.countP_pos_iff]
  rw [ht.1]
  exact Nat.one_pos

/-- If a tracked hash exists, a fresh issue of a *different* secret cannot
collide with it, and every op preserves the tracking. -/
theorem tokTracked_applyAuthOp (db : AuthDB) (op : AuthOp) {h u e : Nat}
    (ht : TokTracked db h u e) : TokTracked (applyAuthOp db op) h u e := by
  cases op with
  | issue u₂ t₂ now₂ ttl₂ =>
      rw [applyAuthOp_issue_eq]
      by_cases hany : db.any (fun r => r.token_hash == hash_token t₂) = true
      · rw [if_pos hany]; exact ht
      · rw [if_neg hany]
        rw [Bool.not_eq_true, List.any_eq_false] at hany
        obtain ⟨a, ha, hah⟩ := tracked_hash_mem ht
        have hne : hash_token t₂ ≠ h := by
          intro hcontra
          apply hany a ha
          rw [hcontra]
          exact hah
        constructor
        · rw [List.countP_append, List.countP_cons, List.countP_nil]
          have hz : ((issuedToken u₂ t₂ now₂ ttl₂).token_hash == h) = false := by
            simp [issuedToken, hne]
          rw [hz]
          simp [ht.1]
        · intro r hr hrh
          rcases List.mem_append.mp hr with hmem | hmem
          · exact ht.2 r hmem hrh
          · rw [List.mem_singleton] at hmem
            subst hmem
            exact absurd hrh hne
  | verify t₂ now₂ =>
      show TokTracked (verify_refresh_token db t₂ now₂).1 h u e
      rcases verify_fst_cases db t₂ now₂ with hc | hc <;> rw [hc]
      · exact ht
      · exact tokTracked_touchFirst (fun r => ⟨rfl, rfl, rfl⟩) ht
  | revoke t₂ now₂ =>
      show TokTracked (revoke_refresh_token db t₂ now₂).1 h u e
      rcases revoke_fst_cases db t₂ now₂ with hc | hc <;> rw [hc]
      · exact ht
      · exact tokTracked_touchFirst (fun r => ⟨rfl, rfl, rfl⟩) ht
  | revokeAll u₂ now₂ =>
      show TokTracked (revoke_all_user_tokens db u₂ now₂).1 h u e
      simp only [revoke_all_user_tokens]
      refine tokTracked_map (fun r => ?_) ht
      by_cases hc : (r.user_id == u₂ && r.is_revoked == false) = true
      · rw [if_pos hc]
        exact ⟨rfl, rfl, rfl⟩
      · rw [if_neg hc]
        exact ⟨rfl, rfl, rfl⟩

/-- Once every row of a tracked hash is revoked, it stays revoked under
every op (re-issuing the same hash is blocked by the unique index). -/
theorem tokAllRevoked_applyAuthOp (db : AuthDB) (op : AuthOp) {h u e : Nat}
    (ht : TokTracked db h u e) (hrv : TokAllRevoked db h) :
    TokAllRevoked (applyAuthOp db op) h := by
  cases op with
  | issue u₂ t₂ now₂ ttl₂ =>
      rw [applyAuthOp_issue_eq]
      by_cases hany : db.any (fun r => r.token_hash == hash_token t₂) = true
      · rw [if_pos hany]; exact hrv
      · rw [if_neg hany]
        rw [Bool.not_eq_true, List.any_eq_false] at hany
        obtain ⟨a, ha, hah⟩ := tracked_hash_mem ht
        have hne : hash_token t₂ ≠ h := by
          intro hcontra
          apply hany a ha
          rw [hcontra]
          exact hah
        intro r hr hrh
        rcases List.mem_append.mp hr with hmem | hmem
        · exact hrv r hmem hrh
        · rw [List.mem_singleton] at hmem
          subst hmem
          exact absurd hrh hne
  | verify t₂ now₂ =>
      show TokAllRevoked (verify_refresh_token db t₂ now₂).1 h
      rcases verify_fst_cases db t₂ now₂ with hc | hc <;> rw [hc]
      · exact hrv
      · exact tokAllRevoked_touchFirst (fun r => ⟨rfl, Or.inl rfl⟩) hrv
  | revoke t₂ now₂ =>
      show TokAllRevoked (revoke_refresh_token db t₂ now₂).1 h
      rcases revoke_fst_cases db t₂ now₂ with hc | hc <;> rw [hc]
      · exact hrv
      · exact tokAllRevoked_touchFirst (fun r => ⟨rfl, Or.inr rfl⟩) hrv
  | revokeAll u₂ now₂ =>
      show TokAllRevoked (revoke_all_user_tokens db u₂ now₂).1 h
      simp only [revoke_all_user_tokens]
      refine tokAllRevoked_map (fun r => ?_) hrv
      by_cases hc : (r.user_id == u₂ && r.is_revoked == false) = true
      · rw [if_pos hc]
        exact ⟨rfl, Or.inr rfl⟩
      · rw [if_neg hc]
        exact ⟨rfl, Or.inl rfl⟩

/-- Tracking survives any op sequence. -/
theorem tokTracked_applyAuthOps (db : AuthDB) (ops : List AuthOp) {h u e : Nat}
    (ht : TokTracked db h u e) : TokTracked (applyAuthOps db ops) h u e := by
  induction ops generalizing db with
  | nil => exact ht
  | cons op ops ih => exact ih _ (tokTracked_applyAuthOp db op ht)

/-- Tracking plus all-revoked survives any op sequence. -/
theorem tokRevoked_applyAuthOps (db : AuthDB) (ops : List AuthOp) {h u e : Nat}
    (ht : TokTracked db h u e) (hrv : TokAllRevoked db h) :
    TokTracked (applyAuthOps db ops) h u e ∧
      TokAllRevoked (applyAuthOps db ops) h := by
  induction ops generalizing db with
  | nil => exact ⟨ht, hrv⟩
  | cons op ops ih =>
      exact ih _ (tokTracked_applyAuthOp db op ht)
        (tokAllRevoked_applyAuthOp db op ht hrv)

/-- A token whose every matching row is revoked or expired verifies to
`invalid`, leaving the store untouched. -/
theorem verify_of_dead (db : AuthDB) (tok now : Nat)
    (hdead : ∀ r ∈ db, r.token_hash = hash_token tok →
      r.is_revoked = true ∨ r.expires_at ≤ now) :
    verify_refresh_token db tok now = (db, none) := by
  unfold verify_refresh_token
  have hfind : db.find? (verifyPred tok now) = none := by
    rw [List.find?_eq_none]
    intro r hr hcontra
    unfold verifyPred at hcontra
    simp only [Bool.and_eq_true, beq_iff_eq, Nat.blt_eq] at hcontra
    rcases hdead r hr hcontra.1.1 with h2 | h2
    · rw [h2] at hcontra
      exact absurd hcontra.1.2 (by simp)
    · omega
  rw [hfind]

/-- A fresh issue followed by a verify before expiry finds the new row,
touches its last-used stamp and returns it. -/
theorem verify_append_fresh (l : AuthDB) (r₀ : RefreshToken) (tok t : Nat)
    (hfresh : ∀ r ∈ l, r.token_hash ≠ hash_token tok)
    (hr₀ : verifyPred tok t r₀ = true) :
    verify_refresh_token (l ++ [r₀]) tok t
      = (l ++ [{ r₀ with last_used_at := some t }],
         some { r₀ with last_used_at := some t }) := by
  have hneg : ∀ r ∈ l, verifyPred tok t r = false := by
    intro r hr
    unfold verifyPred
    have : (r.token_hash == hash_token tok) = false := by simp [hfresh r hr]
    simp [this]
  unfold verify_refresh_token
  have hfind : (l ++ [r₀]).find? (verifyPred tok t) = some r₀ := by
    rw [find?_append_of_forall_neg hneg, List.find?_cons_of_pos _ hr₀]
  rw [hfind, touchFirst_append_of_forall_neg hneg]
  simp [touchFirst, hr₀]

/-- Revoking a tracked token flags its unique row: the call reports `true`
and afterwards every row of that hash is revoked. -/
theorem revoke_tracked (db : AuthDB) (tok tr : Nat) {u e : Nat}
    (ht : TokTracked db (hash_token tok) u e) :
    (revoke_refresh_token db tok tr).2 = true ∧
      TokTracked (revoke_refresh_token db tok tr).1 (hash_token tok) u e ∧
      TokAllRevoked (revoke_refresh_token db tok tr).1 (hash_token tok) := by
  have hpos : ∃ a ∈ db, (a.token_hash == hash_token tok) = true :=
    tracked_hash_mem ht
  have hfindSome : ∃ a, db.find? (fun r => r.token_hash == hash_token tok) = some a := by
    obtain ⟨a, ha, hah⟩ := hpos
    have : (db.find? (fun r => r.token_hash == hash_token tok)).isSome = true := by
      rw [List.find?_isSome]
      exact ⟨a, ha, hah⟩
    exact Option.isSome_iff_exists.mp this
  obtain ⟨a, hfind⟩ := hfindSome
  have hrevoked : TokAllRevoked
      (touchFirst (fun r => r.token_hash == hash_token tok)
        (fun r => { r with is_revoked := true, revoked_at := some tr }) db)
      (hash_token tok) := by
    have hcount := ht.1
    clear hfind hpos ht
    induction db with
    | nil => intro r hr; simp [touchFirst] at hr
    | cons b l ih =>
        rw [List.countP_cons] at hcount
        by_cases hb : (b.token_hash == hash_token tok) = true
        · simp only [touchFirst, if_pos hb]
          intro r hr hrh
          rcases List.mem_cons.mp hr with rfl | hmem
          · rfl
          · have hl0 : l.countP (fun r => r.token_hash == hash_token tok) = 0 := by
              rw [if_pos hb] at hcount
              omega
            have := List.countP_eq_zero.mp hl0 r hmem
            simp only [hrh] at this
            simp at this
        · simp only [touchFirst, if_neg hb]
          intro r hr hrh
          rcases List.mem_cons.mp hr with rfl | hmem
          · exact absurd (by simp [hrh]) hb
          · have hl1 : l.countP (fun r => r.token_hash == hash_token tok) = 1 := by
              rw [if_neg hb] at hcount
              omega
            exact ih hl1 r hmem hrh
  unfold revoke_refresh_token
  rw [hfind]
  exact ⟨rfl, tokTracked_touchFirst (fun r => ⟨rfl, rfl, rfl⟩) ht, hrevoked⟩

/-- Revoke-all flags every unrevoked row of the user, in particular the
tracked one. -/
theorem revoke_all_tracked (db : AuthDB) (u tr : Nat) {h e : Nat}
    (ht : TokTracked db h u e) :
    TokTracked (revoke_all_user_tokens db u tr).1 h u e ∧
      TokAllRevoked (revoke_all_user_tokens db u tr).1 h := by
  constructor
  · exact tokTracked_applyAuthOp db (AuthOp.revokeAll u tr) ht
  · intro r hr hrh
    simp only [revoke_all_user_tokens] at hr
    rw [List.mem_map] at hr
    obtain ⟨a, ha, rfl⟩ := hr
    by_cases hc : (a.user_id == u && a.is_revoked == false) = true
    · simp only [if_pos hc]
    · simp only [if_neg hc] at hrh ⊢
      have hau : a.user_id = u := (ht.2 a ha hrh).1
      simp only [Bool.and_eq_true, beq_iff_eq] at hc
      push_neg at hc
      have := hc hau
      simp only [beq_iff_eq] at this
      cases hrev : a.is_revoked with
      | true => rfl
      | false => exact absurd hrev this

/-- C6: issuing a fresh token and verifying it succeeds for its user
(touching last-used) while unexpired and unrevoked; once it expires, or
once `revoke` of that token or `revokeAll` of the user runs, every later
verify — across any further sequence of token operations — returns invalid,
permanently. -/
theorem c6_refresh_token_lifecycle (db : AuthDB) (u tok now ttl : Nat)
    (hfresh : ∀ r ∈ db, r.token_hash ≠ hash_token tok) :
    ∃ db₁,
      create_refresh_token db u tok now ttl = Except.ok (db₁, tok) ∧
      (∀ t, t < now + ttl →
        ∃ r, verify_refresh_token db₁ tok t = (db ++ [r], some r) ∧
          r.user_id = u ∧ r.last_used_at = some t) ∧
      (∀ ops t, now + ttl ≤ t →
        verify_refresh_token (applyAuthOps db₁ ops) tok t
          = (applyAuthOps db₁ ops, none)) ∧
      (∀ ops tr,
        (revoke_refresh_token (applyAuthOps db₁ ops) tok tr).2 = true ∧
        (∀ ops₂ t₂,
          verify_refresh_token
              (applyAuthOps (revoke_refresh_token (applyAuthOps db₁ ops) tok tr).1 ops₂)
              tok t₂
            = (applyAuthOps (revoke_refresh_token (applyAuthOps db₁ ops) tok tr).1 ops₂,
               none))) ∧
      (∀ ops tr ops₂ t₂,
        verify_refresh_token
            (applyAuthOps (revoke_all_user_tokens (applyAuthOps db₁ ops) u tr).1 ops₂)
            tok t₂
          = (applyAuthOps (revoke_all_user_tokens (applyAuthOps db₁ ops) u tr).1 ops₂,
             none)) := by
  have hany : db.any (fun r => r.token_hash == hash_token tok) = false := by
    rw [List.any_eq_false]
    intro r hr
    simp [hfresh r hr]
  have hcreate : create_refresh_token db u tok now ttl
      = Except.ok (db ++ [issuedToken u tok now ttl], tok) := by
    unfold create_refresh_token issuedToken
    simp [hany]
  have htracked : TokTracked (db ++ [issuedToken u tok now ttl])
      (hash_token tok) u (now + ttl) := by
    constructor
    · rw [List.countP_append, List.countP_cons, List.countP_nil]
      have hz : db.countP (fun r => r.token_hash == hash_token tok) = 0 := by
        rw [List.countP_eq_zero]
        intro a ha
        simp [hfresh a ha]
      simp [hz, issuedToken]
    · intro r hr hrh
      rcases List.mem_append.mp hr with hmem | hmem
      · exact absurd hrh (hfresh r hmem)
      · rw [List.mem_singleton] at hmem
        subst hmem
        exact ⟨rfl, rfl⟩
  refine ⟨_, hcreate, ?_, ?_, ?_, ?_⟩
  · intro t ht
    refine ⟨_, verify_append_fresh db _ tok t hfresh ?_, rfl, rfl⟩
    unfold verifyPred
    simp [issuedToken, Nat.blt_eq, ht]
  · intro ops t hle
    have htr := tokTracked_applyAuthOps _ ops htracked
    refine verify_of_dead _ tok t ?_
    intro r hr hrh
    exact Or.inr (by rw [(htr.2 r hr hrh).2]; omega)
  · intro ops tr
    have htr := tokTracked_applyAuthOps _ ops htracked
    obtain ⟨hret, htr₂, hrv₂⟩ := revoke_tracked _ tok tr htr
    refine ⟨hret, ?_⟩
    intro ops₂ t₂
    have hfinal := tokRevoked_applyAuthOps _ ops₂ htr₂ hrv₂
    refine verify_of_dead _ tok t₂ ?_
    intro r hr hrh
    exact Or.inl (hfinal.2 r hr hrh)
  · intro ops tr ops₂ t₂
    have htr := tokTracked_applyAuthOps _ ops htracked
    obtain ⟨htr₂, hrv₂⟩ := revoke_all_tracked _ u tr htr
    have hfinal := tokRevoked_applyAuthOps _ ops₂ htr₂ hrv₂
    refine verify_of_dead _ tok t₂ ?_
    intro r hr hrh
    exact Or.inl (hfinal.2 r hr hrh)

/-- C6 witness: the lifecycle instantiated at an empty store, user 7,
secret 3, issue time 0, ttl 10. -/
theorem c6_witness :
    ∃ db₁,
      create_refresh_token [] 7 3 0 10 = Except.ok (db₁, 3) ∧
      (∀ t, t < 0 + 10 →
        ∃ r, verify_refresh_token db₁ 3 t = ([] ++ [r], some r) ∧
          r.user_id = 7 ∧ r.last_used_at = some t) ∧
      (∀ ops t, 0 + 10 ≤ t →
        verify_refresh_token (applyAuthOps db₁ ops) 3 t
          = (applyAuthOps db₁ ops, none)) ∧
      (∀ ops tr,
        (revoke_refresh_token (applyAuthOps db₁ ops) 3 tr).2 = true ∧
        (∀ ops₂ t₂,
          verify_refresh_token
              (applyAuthOps (revoke_refresh_token (applyAuthOps db₁ ops) 3 tr).1 ops₂)
              3 t₂
            = (applyAuthOps (revoke_refresh_token (applyAuthOps db₁ ops) 3 tr).1 ops₂,
               none))) ∧
      (∀ ops tr ops₂ t₂,
        verify_refresh_token
            (applyAuthOps (revoke_all_user_tokens (applyAuthOps db₁ ops) 7 tr).1 ops₂)
            3 t₂
          = (applyAuthOps (revoke_all_user_tokens (applyAuthOps db₁ ops) 7 tr).1 ops₂,
             none)) :=
  c6_refresh_token_lifecycle [] 7 3 0 10 (by simp)

end RTWS
